import Mathlib

/-!
# Verification of the otto Appfile compiler (`appfile` package)

Shallow embedding of the compilation pipeline of `builtin/app/go/customization.go`
(the `appfile` package part: `LoadCompiled`, `Compile`, `MinCompile`,
`compileDependencies`, `compileImports`, `compileVersion`, `compileWrite`,
`Compiled.Validate`).

External collaborators (the `getter` fetcher, `ParseFile`, `File.Validate`,
`File.Merge`, `strconv.ParseInt`, the `dag` cycle primitive, the filesystem)
are modelled as explicit function parameters, mirroring how the Go code
consumes them; the control flow of the package itself is translated
statement by statement.
-/

namespace Otto

/-- A project configuration carried by a `File` (`*Project` in Go; `none`
models a nil pointer).  Only the fields the compiler touches are modelled;
`name` stands for the fields the compiler leaves alone. -/
structure Project where
  name : String
  infrastructure : String
deriving Repr, DecidableEq, Inhabited

/-- One entry of `Application.Dependencies`. -/
structure Dependency where
  source : String
deriving Repr, DecidableEq, Inhabited

/-- One entry of `File.Imports`. -/
structure FileImport where
  source : String
deriving Repr, DecidableEq, Inhabited

/-- The `Application` block of an Appfile. -/
structure Application where
  name : String
  dependencies : List Dependency
deriving Repr, DecidableEq, Inhabited

/-- A parsed Appfile (`*File` in Go).  `infrastructure` stands for the whole
infrastructure configuration value (the compiler only copies and compares
it); `project = none` models a nil `*Project`. -/
structure File where
  path : String
  id : String
  source : String
  application : Application
  imports : List FileImport
  infrastructure : String
  project : Option Project
deriving Repr, DecidableEq, Inhabited

/-- The vertex type of the compiled dependency graph
(`CompiledGraphVertex`). -/
structure CompiledGraphVertex where
  file : File
  dir : String
  nameValue : String
deriving Repr, DecidableEq, Inhabited

/-- The dependency graph of a compiled Appfile (`dag.AcyclicGraph` holding
`*CompiledGraphVertex` vertices).  `graph.Add` appends a vertex,
`graph.Connect(dag.BasicEdge(a, b))` appends an edge. -/
structure Graph where
  vertices : List CompiledGraphVertex
  edges : List (CompiledGraphVertex × CompiledGraphVertex)
deriving Repr, DecidableEq, Inhabited

/-- `graph.Add(v)` -/
def Graph.add (g : Graph) (v : CompiledGraphVertex) : Graph :=
  { g with vertices := g.vertices ++ [v] }

/-- `graph.Connect(dag.BasicEdge(a, b))` -/
def Graph.connect (g : Graph) (a b : CompiledGraphVertex) : Graph :=
  { g with edges := g.edges ++ [(a, b)] }

/-- A compiled Appfile (`Compiled`): the root `File` plus the dependency
graph. -/
structure Compiled where
  file : File
  graph : Graph
deriving Repr, DecidableEq, Inhabited

/-- `CompileVersion = 1` -/
def CompileVersion : Int := 1

/-! ## LoadCompiled (claim C3) -/

/-- The fixed error text returned by `LoadCompiled` when the on-disk version
is newer than `CompileVersion` (the source spells "enviroment"). -/
def recompileNewerMsg : String :=
  "The Appfile for this enviroment was compiled with a newer version\n" ++
  "of Otto. Otto can\x27t load this environment. You can recompile this\n" ++
  "environment to this version of Otto with \x60otto compile\x60."

/-- The observable filesystem actions of `LoadCompiled`. -/
inductive LoadEvent where
  | readVersion
  | openCompiled
deriving Repr, DecidableEq

/-- `LoadCompiled(dir)`.  `readVersionFile` models
`oneline.Read(dir/version)`, `parseInt` models `strconv.ParseInt(s, 0, 0)`,
and `decodeCompiled` models opening and JSON-decoding `dir/Appfile.compiled`
(all external collaborators).  The event list records which files were
touched, in order. -/
def loadCompiled (readVersionFile : Except String String)
    (parseInt : String → Except String Int)
    (decodeCompiled : Except String Compiled) :
    List LoadEvent × Except String Compiled :=
  match readVersionFile with
  | .error e => ([LoadEvent.readVersion], .error e)
  | .ok vsnStr =>
    match parseInt vsnStr with
    | .error e => ([LoadEvent.readVersion], .error e)
    | .ok vsn =>
      if vsn > CompileVersion then
        ([LoadEvent.readVersion], .error recompileNewerMsg)
      else
        ([LoadEvent.readVersion, LoadEvent.openCompiled], decodeCompiled)

/-! ## The cycle-reporting block of compileImports (claim C5) -/

/-- `"Cycle found: " + strings.Join(names, ", ")` -/
def cycleErrorMsg (names : List String) : String :=
  "Cycle found: " ++ String.intercalate ", " names

/-- The block of `importSingle` run after each edge addition, on the list
returned by `graph.Cycles()`.  It mirrors the Go loop

```
if len(cycles) > 0 {
    for _, cycle := range cycles {
        ...
        resultErr = multierror.Append(resultErr, fmt.Errorf(
            "Cycle found: %s", strings.Join(names, ", ")))
        return false
    }
}
```

whose body unconditionally returns inside the first iteration: the first
cycle is appended to `resultErr` and the import aborts.  Returns the updated
error list and whether the import continues. -/
def reportCycles (cycles : List (List String)) (resultErr : List String) :
    List String × Bool :=
  match cycles with
  | [] => (resultErr, true)
  | c :: _ => (resultErr ++ [cycleErrorMsg c], false)

/-! ## The merge phase of compileImports (claims C2, C4) -/

/-- `"Error merging import %s: %s"` -/
def mergeErrorMsg (source err : String) : String :=
  "Error merging import " ++ source ++ ": " ++ err

/-- The final state of the `merge` slice of `importSingle` after running the
download goroutines: the goroutines finish in completion order `order`, and
the goroutine for import index `i` writes its produced file `res i` into
slot `i` under `mergeLock` (`result[idx] = importF`).  `res` abstracts the
(deterministic) fetch+parse+recursive-resolution result of each import. -/
def runDownloads (n : Nat) (res : Nat → File) (order : List Nat) :
    List (Option File) :=
  order.foldl (fun slots i => slots.set i (some (res i))) (List.replicate n none)

/-- The sequential merge loop of `importSingle`, run once all slots are
filled.  For each imported file in slot order: copy it
(`importFCopy := *importF`), remember `source := importF.ID`, clear `ID` and
`Path`, and call `f.Merge(importF)` (the schema-defined merge, passed in as
`merge`); a merge error is appended to the accumulated error list and aborts
the loop. -/
def mergeLoop (merge : File → File → Except String File)
    (accErr : List String) : File → List File → Except (List String) File
  | host, [] => .ok host
  | host, importF :: rest =>
    let importFCopy := importF
    let source := importFCopy.id
    let cleared : File := { importFCopy with id := "", path := "" }
    match merge host cleared with
    | .error e => .error (accErr ++ [mergeErrorMsg source e])
    | .ok host2 => mergeLoop merge accErr host2 rest

/-- The post-barrier phase of `importSingle`: scan the merge slots for `nil`
entries (a `nil` slot means that download failed and its error is already in
`accErr`); if any slot is `nil`, return the accumulated errors without
merging anything; otherwise run the sequential merge loop in slot order. -/
def mergePhase (merge : File → File → Except String File) (host : File)
    (accErr : List String) (slots : List (Option File)) :
    Except (List String) File :=
  if none ∈ slots then .error accErr
  else mergeLoop merge accErr host (slots.filterMap id)

/-! ## The cache-copy discipline of the merge loop (claim C6) -/

/-- A heap of `File` objects; a Go `*File` is an index into the heap.  Both
the import cache and the merge slots hold such references. -/
abbrev Heap := List File

/-- The merge loop of `importSingle`, with the pointer structure made
explicit: each slot is a reference into the heap.  Each iteration reads the
referenced object, allocates a fresh copy (the `importFCopy` variable of
the source — the new cell is appended to the heap), clears
`ID`/`Path` on the copy only, and merges the copy into the host.  Returns
the final heap together with the merge outcome. -/
def mergeLoopH (merge : File → File → Except String File) :
    Heap → File → List Nat → Heap × Except (List String) File
  | h, host, [] => (h, .ok host)
  | h, host, r :: rest =>
    let importF := h.getD r default
    let importFCopy := importF
    let source := importFCopy.id
    let cleared : File := { importFCopy with id := "", path := "" }
    let h2 : Heap := h ++ [cleared]
    match merge host cleared with
    | .error e => (h2, .error [mergeErrorMsg source e])
    | .ok host2 => mergeLoopH merge h2 host2 rest

/-- The heap only ever grows during the merge loop: every pre-existing cell
(in particular every cell the import cache points at) is untouched. -/
theorem mergeLoopH_frame (merge : File → File → Except String File) :
    ∀ (rs : List Nat) (h : Heap) (host : File),
      (List.take (List.length h) (mergeLoopH merge h host rs).fst) = h := by
  intro rs
  induction rs with
  | nil =>
    intro h host
    simp [mergeLoopH, Heap] at *
  | cons r rest ih =>
    intro h host
    simp only [mergeLoopH]
    cases hm : merge host
        { h.getD r default with id := "", path := "" } with
    | error e =>
      simp [hm, Heap] at *
    | ok host2 =>
      simp only [hm]
      have h1 := ih (h ++ [{ h.getD r default with id := "", path := "" }]) host2
      have h2 : List.length h ≤
          List.length (h ++ [{ h.getD r default with id := "", path := "" }]) := by
        simp [Heap] at *
      calc List.take (List.length h)
            (mergeLoopH merge
              (h ++ [{ h.getD r default with id := "", path := "" }]) host2 rest).fst
          = List.take (List.length h)
              (List.take
                (List.length (h ++ [{ h.getD r default with id := "", path := "" }]))
                (mergeLoopH merge
                  (h ++ [{ h.getD r default with id := "", path := "" }]) host2 rest).fst) := by
            rw [List.take_take, min_eq_left h2]
        _ = List.take (List.length h)
              (h ++ [{ h.getD r default with id := "", path := "" }]) := by rw [h1]
        _ = h := by
            rw [List.take_append_of_le_length (le_refl _), List.take_length]

/-! ## Helper lemmas about slot filling -/

/-- Filling slots never changes the number of slots. -/
theorem foldlSet_length (res : Nat → File) :
    ∀ (order : List Nat) (init : List (Option File)),
      (order.foldl (fun slots i => slots.set i (some (res i))) init).length
        = init.length := by
  intro order
  induction order with
  | nil => intro init; rfl
  | cons i rest ih =>
    intro init
    simp only [List.foldl_cons]
    rw [ih (init.set i (some (res i))), List.length_set]

/-- After running the downloads in any completion order, slot `j` holds
`res j` as soon as task `j` was scheduled, and is untouched otherwise. -/
theorem foldlSet_getElem? (res : Nat → File) :
    ∀ (order : List Nat) (init : List (Option File)) (j : Nat), j < init.length →
      (order.foldl (fun slots i => slots.set i (some (res i))) init)[j]? =
        if j ∈ order then some (some (res j)) else init[j]? := by
  intro order
  induction order with
  | nil => intro init j _; simp
  | cons i rest ih =>
    intro init j hj
    simp only [List.foldl_cons]
    rw [ih (init.set i (some (res i))) j (by simpa using hj)]
    by_cases hjr : j ∈ rest
    · simp [hjr]
    · by_cases hji : j = i
      · subst hji
        simp [hjr, List.getElem?_set_eq_of_lt _ hj]
      · simp [hjr, hji, List.getElem?_set_ne (Ne.symm hji)]

/-- If every task index below `n` was scheduled, the final slot list is
fully determined: slot `i` holds `res i`, independently of the completion
order. -/
theorem runDownloads_complete (n : Nat) (res : Nat → File) (order : List Nat)
    (hmem : ∀ j, j < n → j ∈ order) :
    runDownloads n res order = (List.range n).map (fun i => some (res i)) := by
  apply List.ext_getElem?
  intro j
  by_cases hj : j < n
  · rw [runDownloads, foldlSet_getElem? res order _ j (by simpa using hj)]
    rw [List.getElem?_map, List.getElem?_range hj]
    simp [hmem j hj]
  · have h1 : (runDownloads n res order).length = n := by
      rw [runDownloads, foldlSet_length]; simp
    have h2 : ((List.range n).map (fun i => some (res i))).length = n := by simp
    rw [List.getElem?_eq_none (by omega), List.getElem?_eq_none (by omega)]

/-- C2: given the per-import download results `res` (each download writes
its result into the merge slot at its declaration index), the merge phase
computes the same thing for any completion order of the parallel fetch
tasks as for the textual declaration order `0, 1, ..., n-1`: merge order is
the declaration order of `F.imports`, independent of fetch completion
order, and merging only happens after all fetches have joined. -/
theorem importMerge_declaration_order (n : Nat) (res : Nat → File)
    (order : List Nat) (merge : File → File → Except String File)
    (host : File) (accErr : List String)
    (hsched : order.Perm (List.range n)) :
    mergePhase merge host accErr (runDownloads n res order) =
      mergePhase merge host accErr ((List.range n).map (fun i => some (res i))) := by
  rw [runDownloads_complete n res order
    (fun j hj => (hsched.mem_iff).2 (List.mem_range.2 hj))]

/-- Witness for C2 at a concrete completion order. -/
theorem importMerge_declaration_order_witness :
    List.Perm [2, 0, 1] (List.range 3) ∧
      mergePhase (fun h _ => Except.ok h) default []
          (runDownloads 3 (fun _ => default) [2, 0, 1]) =
        mergePhase (fun h _ => Except.ok h) default []
          ((List.range 3).map (fun i => some ((fun _ => (default : File)) i))) :=
  ⟨by decide, importMerge_declaration_order 3 (fun _ => default) [2, 0, 1]
    (fun h _ => Except.ok h) default [] (by decide)⟩

/-- C4: if any merge slot is `nil` after the join barrier (some import
failed to fetch, parse or recursively resolve), the resolver returns exactly
the accumulated error list and performs no merge at all — the conclusion
holds for every possible `merge` function, so the host file is never
partially merged. -/
theorem mergePhase_no_partial_merge (merge : File → File → Except String File)
    (host : File) (accErr : List String) (slots : List (Option File))
    (hnil : none ∈ slots) :
    mergePhase merge host accErr slots = .error accErr := by
  simp [mergePhase, hnil]

/-- Witness for C4 at a concrete failed slot list. -/
theorem mergePhase_no_partial_merge_witness :
    none ∈ [some (default : File), none] ∧
      mergePhase (fun h _ => Except.ok h) default ["download failed"]
          [some (default : File), none] = .error ["download failed"] :=
  ⟨by decide, mergePhase_no_partial_merge (fun h _ => Except.ok h) default
    ["download failed"] [some default, none] (by decide)⟩

/-- C6: the merge loop copies each imported file before clearing `id`/`path`
and merging, so every pre-existing heap cell — in particular every cell
an import-cache entry points at — is unchanged after any number of merges:
its
`id`, its `path` and the whole cell are the same before and after. -/
theorem mergeLoop_cache_preserved (merge : File → File → Except String File)
    (h : Heap) (host : File) (rs : List Nat) (cache : List (String × Nat))
    (hvalid : ∀ p ∈ cache, p.2 < h.length) :
    ∀ p ∈ cache,
      ((mergeLoopH merge h host rs).fst.getD p.2 default).id
          = (h.getD p.2 default).id ∧
        ((mergeLoopH merge h host rs).fst.getD p.2 default).path
          = (h.getD p.2 default).path ∧
        (mergeLoopH merge h host rs).fst.getD p.2 default
          = h.getD p.2 default := by
  intro p hp
  have hframe := mergeLoopH_frame merge rs h host
  have hlt := hvalid p hp
  have hcell : ((mergeLoopH merge h host rs).fst)[p.2]? = h[p.2]? := by
    conv_rhs => rw [← hframe]
    rw [List.getElem?_take]
    simp [hlt]
  have : (mergeLoopH merge h host rs).fst.getD p.2 default
      = h.getD p.2 default := by
    rw [List.getD_eq_getElem?_getD, List.getD_eq_getElem?_getD, hcell]
  exact ⟨by rw [this], by rw [this], this⟩

/-- A concrete cached file used by witnesses below. -/
def cachedSample : File :=
  { path := "/cache/a/Appfile", id := "key-a", source := "",
    application := { name := "a", dependencies := [] }, imports := [],
    infrastructure := "aws", project := none }

/-- Witness for C6: two merges through reference 0 leave the cached cell,
its `id` and its `path` untouched. -/
theorem mergeLoop_cache_preserved_witness :
    (∀ p ∈ [("key-a", 0)], p.2 < [cachedSample].length) ∧
      (((mergeLoopH (fun h _ => Except.ok h) [cachedSample] default
            [0, 0]).fst.getD 0 default).id = ([cachedSample].getD 0 default).id ∧
        ((mergeLoopH (fun h _ => Except.ok h) [cachedSample] default
            [0, 0]).fst.getD 0 default).path = ([cachedSample].getD 0 default).path ∧
        (mergeLoopH (fun h _ => Except.ok h) [cachedSample] default
            [0, 0]).fst.getD 0 default = [cachedSample].getD 0 default) :=
  ⟨by decide, mergeLoop_cache_preserved (fun h _ => Except.ok h) [cachedSample]
    default [0, 0] [("key-a", 0)] (by decide) ("key-a", 0) (by decide)⟩

/-! ## The dependency compiler (claims C1, C8, C10) -/

/-- The result of a compiler step.  `err` is a returned Go `error`;
`nilPanic` is a nil-pointer dereference (a runtime panic, not a returned
error). -/
inductive Outcome (α : Type) where
  | ok : α → Outcome α
  | err : String → Outcome α
  | nilPanic : Outcome α
deriving Repr, DecidableEq

/-- The result of `os.Stat(dir/Appfile)`: the file is present, absent
(`os.IsNotExist`), or stat failed with another error. -/
inductive Stat where
  | present
  | absent
  | statErr (msg : String)
deriving Repr, DecidableEq

/-- The external collaborators consumed by `compileDependencies`, one field
per call site:
* `detect src p` models `getter.Detect(src, filepath.Dir(p), getter.Detectors)`
  (`p` is the referencing file's `Path`);
* `storageGet key` models `storage.Get(key, key, true)`;
* `storageDir key` models `storage.Dir(key)`;
* `stat dir` models `os.Stat(filepath.Join(dir, "Appfile"))`;
* `parseFile dir` models `ParseFile(filepath.Join(dir, "Appfile"))`;
* `resolveImports f` models the in-place mutation of `f` by
  `c.compileImports(f)` (returning the merged file);
* `loader` models `c.opts.Loader` (`none` = nil);
* `hasID f` models `f.hasID()`. -/
structure DepEnv where
  detect : String → String → Except String String
  storageGet : String → Except String Unit
  storageDir : String → Except String String
  stat : String → Stat
  parseFile : String → Except String File
  resolveImports : File → Except String File
  loader : Option (Option File → String → Except String File)
  hasID : File → Except String Bool

/-- `"Error loading source: %s"` -/
def loadSourceErrMsg (e : String) : String :=
  "Error loading source: " ++ e

/-- `"Error parsing Appfile in %s: %s"` -/
def parseAppfileErrMsg (key e : String) : String :=
  "Error parsing Appfile in " ++ key ++ ": " ++ e

/-- `"Error loading Appfile in %s: %s"` -/
def loadAppfileErrMsg (key e : String) : String :=
  "Error loading Appfile in " ++ key ++ ": " ++ e

/-- `"Error checking for ID file for Appfile in %s: %s"` -/
def idFileErrMsg (key e : String) : String :=
  "Error checking for ID file for Appfile in " ++ key ++ ": " ++ e

/-- The fixed remediation message returned when a dependency has no
`.ottoid`, with the dependency's canonical key interpolated. -/
def ottoIDMsg (key : String) : String :=
  "Dependency \x27" ++ key ++ "\x27 doesn\x27t have an Otto ID yet!\n\n" ++
  "An Otto ID is generated on the first compilation of the Appfile.\n" ++
  "It is a globally unique ID that is used to track the application\n" ++
  "across multiple deploys. It is required for the application to be\n" ++
  "used as a dependency. To fix this, check out that application and\n" ++
  "compile the Appfile with \x60otto compile\x60 once. Make sure you commit\n" ++
  "the .ottoid file into version control, and then try this command\n" ++
  "again."

/-- The tail of the `vertex == nil` branch of the `compileDependencies`
loop, from `f.Source = key` on, once a non-nil file `f1` is in hand: set the
source, check the `.ottoid`, propagate the root's `Infrastructure` and
`Project.Infrastructure` downward (allocating an empty `Project` when the
dependency has none), and build the new vertex. -/
def finishDependency (env : DepEnv) (root : CompiledGraphVertex)
    (key dir : String) (f1 : File) : Outcome CompiledGraphVertex :=
  -- Set the source
  let f2 : File := { f1 with source := key }
  -- Without an otto ID we cannot do anything
  match env.hasID f2 with
  | .error e => .err (idFileErrMsg key e)
  | .ok false => .err (ottoIDMsg key)
  | .ok true =>
  -- We merge the root infrastructure choice upwards to all dependencies
  let f3 : File := { f2 with infrastructure := root.file.infrastructure }
  let f4 : File :=
    match root.file.project with
    | none => f3
    | some rp =>
      let p0 := f3.project.getD { name := "", infrastructure := "" }
      { f3 with project := some { p0 with infrastructure := rp.infrastructure } }
  .ok { file := f4, dir := dir, nameValue := f4.application.name }

/-- The body of the `vertex == nil` branch of the `compileDependencies`
loop: download the dependency `key`, parse its Appfile if present (resolving
its imports), run the optional loader, then set `f.Source = key` (a nil
dereference when `f` is nil) and finish via `finishDependency`. -/
def loadDependency (env : DepEnv) (root : CompiledGraphVertex) (key : String) :
    Outcome CompiledGraphVertex :=
  match env.storageGet key with
  | .error e => .err e
  | .ok _ =>
  match env.storageDir key with
  | .error e => .err e
  | .ok dir =>
  -- Parse the Appfile if it exists
  let parsed : Outcome (Option File) :=
    match env.stat dir with
    | .statErr e => .err (parseAppfileErrMsg key e)
    | .absent => .ok none
    | .present =>
      match env.parseFile dir with
      | .error e => .err (parseAppfileErrMsg key e)
      | .ok f =>
        -- Realize all the imports for this file
        match env.resolveImports f with
        | .error e => .err e
        | .ok f2 => .ok (some f2)
  match parsed with
  | .err e => .err e
  | .nilPanic => .nilPanic
  | .ok f0 =>
  -- Do any additional loading if we have a loader
  let loaded : Outcome (Option File) :=
    match env.loader with
    | none => .ok f0
    | some L =>
      match L f0 dir with
      | .error e => .err (loadAppfileErrMsg key e)
      | .ok f => .ok (some f)
  match loaded with
  | .err e => .err e
  | .nilPanic => .nilPanic
  | .ok fOpt =>
  -- `f.Source = key` dereferences `f`, which is nil when no Appfile was
  -- parsed and no loader is configured
  match fOpt with
  | none => .nilPanic
  | some f1 => finishDependency env root key dir f1

/-- The inner `for _, dep := range current.File.Application.Dependencies`
loop of `compileDependencies`: resolve each dependency source against the
current file's directory, reuse the mapped vertex on a key hit, otherwise
load a new vertex, add it to the graph/map/queue, and connect an edge from
`current` to the dependency's vertex in either case. -/
def processDeps (env : DepEnv) (rootV : CompiledGraphVertex) :
    List Dependency → CompiledGraphVertex →
      List (String × CompiledGraphVertex) → Graph → List CompiledGraphVertex →
      Outcome (List (String × CompiledGraphVertex) × Graph × List CompiledGraphVertex)
  | [], _, vmap, g, queue => .ok (vmap, g, queue)
  | dep :: rest, current, vmap, g, queue =>
    match env.detect dep.source current.file.path with
    | .error e => .err (loadSourceErrMsg e)
    | .ok key =>
      match List.lookup key vmap with
      | some v =>
        processDeps env rootV rest current vmap (g.connect current v) queue
      | none =>
        match loadDependency env rootV key with
        | .err e => .err e
        | .nilPanic => .nilPanic
        | .ok v =>
          processDeps env rootV rest current ((key, v) :: vmap)
            ((g.add v).connect current v) (queue ++ [v])

/-- The LIFO worklist loop of `compileDependencies`
(`current, queue = queue[len(queue)-1], queue[:len(queue)-1]`), with an
explicit fuel bound on the number of iterations. -/
def depLoop (env : DepEnv) (rootV : CompiledGraphVertex) :
    Nat → List CompiledGraphVertex → List (String × CompiledGraphVertex) →
      Graph → Outcome Graph
  | _, [], _, g => .ok g
  | 0, _ :: _, _, _ => .err "compileDependencies: fuel exhausted"
  | fuel + 1, q :: qs, vmap, g =>
    let current := (q :: qs).getLast (List.cons_ne_nil q qs)
    let queue2 := (q :: qs).dropLast
    match processDeps env rootV current.file.application.dependencies current
        vmap g queue2 with
    | .err e => .err e
    | .nilPanic => .nilPanic
    | .ok (vmap2, g2, queue3) => depLoop env rootV fuel queue3 vmap2 g2

/-- `compileDependencies(root, graph)`: seed the vertex map with the root at
its self-resolved key (source `"."`) and run the worklist loop. -/
def compileDependencies (env : DepEnv) (fuel : Nat)
    (root : CompiledGraphVertex) (graph : Graph) : Outcome Graph :=
  match env.detect "." root.file.path with
  | .error e => .err e
  | .ok key => depLoop env root fuel [root] [(key, root)] graph

/-- The root-configuration propagation invariant of claim C1. -/
def Propagated (rootF : File) (f : File) : Prop :=
  f.infrastructure = rootF.infrastructure ∧
    ∀ rp, rootF.project = some rp →
      ∃ p, f.project = some p ∧ p.infrastructure = rp.infrastructure

/-- If `finishDependency` succeeds, the produced vertex carries the root
configuration: the propagation block runs unconditionally before the vertex
is built. -/
theorem finishDependency_propagated (env : DepEnv) (root : CompiledGraphVertex)
    (key dir : String) (f1 : File) (v : CompiledGraphVertex)
    (h : finishDependency env root key dir f1 = .ok v) :
    Propagated root.file v.file := by
  unfold finishDependency at h
  cases hid : env.hasID { f1 with source := key } with
  | error e => simp [hid] at h
  | ok b =>
    cases b with
    | false => simp [hid] at h
    | true =>
      simp only [hid] at h
      cases hp : root.file.project with
      | none =>
        simp only [hp, Outcome.ok.injEq] at h
        subst h
        refine ⟨rfl, ?_⟩
        intro rp hrp
        rw [hp] at hrp
        exact absurd hrp (by simp)
      | some rp =>
        simp only [hp, Outcome.ok.injEq] at h
        subst h
        refine ⟨rfl, ?_⟩
        intro rp2 hrp2
        rw [hp, Option.some_inj] at hrp2
        subst hrp2
        exact ⟨_, rfl, rfl⟩

/-- Every successful `loadDependency` goes through `finishDependency`. -/
theorem loadDependency_ok_finish (env : DepEnv) (root : CompiledGraphVertex)
    (key : String) (v : CompiledGraphVertex)
    (h : loadDependency env root key = .ok v) :
    ∃ dir f1, finishDependency env root key dir f1 = .ok v := by
  unfold loadDependency at h
  cases hget : env.storageGet key with
  | error e => simp [hget] at h
  | ok u =>
    simp only [hget] at h
    cases hdir : env.storageDir key with
    | error e => simp [hdir] at h
    | ok dir =>
      simp only [hdir] at h
      cases hstat : env.stat dir with
      | statErr e => simp [hstat] at h
      | absent =>
        simp only [hstat] at h
        cases hld : env.loader with
        | none => simp [hld] at h
        | some L =>
          simp only [hld] at h
          cases hL : L none dir with
          | error e => simp [hL] at h
          | ok f => simp only [hL] at h; exact ⟨dir, f, h⟩
      | present =>
        simp only [hstat] at h
        cases hparse : env.parseFile dir with
        | error e => simp [hparse] at h
        | ok f =>
          simp only [hparse] at h
          cases hres : env.resolveImports f with
          | error e => simp [hres] at h
          | ok f2 =>
            simp only [hres] at h
            cases hld : env.loader with
            | none => simp only [hld] at h; exact ⟨dir, f2, h⟩
            | some L =>
              simp only [hld] at h
              cases hL : L (some f2) dir with
              | error e => simp [hL] at h
              | ok f3 => simp only [hL] at h; exact ⟨dir, f3, h⟩

/-- A vertex successfully loaded for a cache-miss key carries the root
configuration. -/
theorem loadDependency_propagated (env : DepEnv) (root : CompiledGraphVertex)
    (key : String) (v : CompiledGraphVertex)
    (h : loadDependency env root key = .ok v) :
    Propagated root.file v.file := by
  obtain ⟨dir, f1, hf⟩ := loadDependency_ok_finish env root key v h
  exact finishDependency_propagated env root key dir f1 v hf

/-- Invariant of the inner dependency loop: every vertex of the output graph
was already in the input graph or carries the root configuration. -/
theorem processDeps_propagated (env : DepEnv) (rootV : CompiledGraphVertex) :
    ∀ (deps : List Dependency) (current : CompiledGraphVertex)
      (vmap : List (String × CompiledGraphVertex)) (g : Graph)
      (queue : List CompiledGraphVertex)
      (vmap2 : List (String × CompiledGraphVertex)) (g2 : Graph)
      (queue2 : List CompiledGraphVertex),
      processDeps env rootV deps current vmap g queue = .ok (vmap2, g2, queue2) →
      ∀ v ∈ g2.vertices, v ∈ g.vertices ∨ Propagated rootV.file v.file := by
  intro deps
  induction deps with
  | nil =>
    intro current vmap g queue vmap2 g2 queue2 h v hv
    simp only [processDeps, Outcome.ok.injEq, Prod.mk.injEq] at h
    obtain ⟨-, hg, -⟩ := h
    exact Or.inl (hg ▸ hv)
  | cons dep rest ih =>
    intro current vmap g queue vmap2 g2 queue2 h v hv
    simp only [processDeps] at h
    cases hdet : env.detect dep.source current.file.path with
    | error e => simp [hdet] at h
    | ok key =>
      simp only [hdet] at h
      cases hlk : List.lookup key vmap with
      | some w =>
        simp only [hlk] at h
        rcases ih current vmap (g.connect current w) queue vmap2 g2 queue2 h v hv
          with hin | hp
        · exact Or.inl hin
        · exact Or.inr hp
      | none =>
        simp only [hlk] at h
        cases hload : loadDependency env rootV key with
        | err e => simp [hload] at h
        | nilPanic => simp [hload] at h
        | ok w =>
          simp only [hload] at h
          rcases ih current ((key, w) :: vmap) ((g.add w).connect current w)
              (queue ++ [w]) vmap2 g2 queue2 h v hv with hin | hp
          · rcases List.mem_append.1 hin with hin2 | hin2
            · exact Or.inl hin2
            · have : v = w := by simpa using hin2
              exact Or.inr (this ▸ loadDependency_propagated env rootV key w hload)
          · exact Or.inr hp

/-- Invariant of the worklist loop: every vertex of the final graph was
already in the input graph or carries the root configuration. -/
theorem depLoop_propagated (env : DepEnv) (rootV : CompiledGraphVertex) :
    ∀ (fuel : Nat) (queue : List CompiledGraphVertex)
      (vmap : List (String × CompiledGraphVertex)) (g g2 : Graph),
      depLoop env rootV fuel queue vmap g = .ok g2 →
      ∀ v ∈ g2.vertices, v ∈ g.vertices ∨ Propagated rootV.file v.file := by
  intro fuel
  induction fuel with
  | zero =>
    intro queue vmap g g2 h v hv
    cases queue with
    | nil =>
      simp only [depLoop, Outcome.ok.injEq] at h
      exact Or.inl (h ▸ hv)
    | cons q qs => simp [depLoop] at h
  | succ n ih =>
    intro queue vmap g g2 h v hv
    cases queue with
    | nil =>
      simp only [depLoop, Outcome.ok.injEq] at h
      exact Or.inl (h ▸ hv)
    | cons q qs =>
      simp only [depLoop] at h
      cases hpd : processDeps env rootV
          ((q :: qs).getLast (List.cons_ne_nil q qs)).file.application.dependencies
          ((q :: qs).getLast (List.cons_ne_nil q qs)) vmap g ((q :: qs).dropLast) with
      | err e => simp [hpd] at h
      | nilPanic => simp [hpd] at h
      | ok triple =>
        obtain ⟨vmap2, g2x, queue3⟩ := triple
        simp only [hpd] at h
        rcases ih queue3 vmap2 g2x g2 h v hv with hin | hp
        · rcases processDeps_propagated env rootV _ _ vmap g _ vmap2 g2x queue3 hpd
              v hin with hin2 | hp2
          · exact Or.inl hin2
          · exact Or.inr hp2
        · exact Or.inr hp

/-- C1: after a successful `compileDependencies` run, every vertex added to
the dependency graph other than the root vertex has its file's
infrastructure equal to the root file's infrastructure, and when the root
file's project is non-nil, a non-nil project whose infrastructure equals the
root project's infrastructure. -/
theorem compileDependencies_propagates (env : DepEnv) (fuel : Nat)
    (rootV : CompiledGraphVertex) (g0 g : Graph)
    (hok : compileDependencies env fuel rootV g0 = .ok g) :
    ∀ v ∈ g.vertices, v ∉ g0.vertices →
      v.file.infrastructure = rootV.file.infrastructure ∧
        ∀ rp, rootV.file.project = some rp →
          ∃ p, v.file.project = some p ∧ p.infrastructure = rp.infrastructure := by
  intro v hv hnot
  unfold compileDependencies at hok
  cases hdet : env.detect "." rootV.file.path with
  | error e => simp [hdet] at hok
  | ok key =>
    simp only [hdet] at hok
    rcases depLoop_propagated env rootV fuel [rootV] [(key, rootV)] g0 g hok v hv
      with hin | hp
    · exact absurd hin hnot
    · exact hp

/-! ### A concrete compilation environment for witnesses -/

/-- A concrete root Appfile: depends on `"b"`, has a project. -/
def rootFileS : File :=
  { path := "/app/Appfile", id := "root-id", source := "",
    application := { name := "root", dependencies := [{ source := "b" }] },
    imports := [], infrastructure := "aws",
    project := some { name := "proj", infrastructure := "aws-east" } }

/-- A concrete dependency Appfile as parsed from disk. -/
def depFileS : File :=
  { path := "", id := "b-id", source := "",
    application := { name := "b", dependencies := [] }, imports := [],
    infrastructure := "google", project := none }

/-- The root vertex produced by `MinCompile` for `rootFileS`. -/
def rootVS : CompiledGraphVertex :=
  { file := rootFileS, dir := "", nameValue := "root" }

/-- A concrete environment: every source resolves to itself, fetches
succeed, every dependency directory has a parsable Appfile and an
`.ottoid`, no loader. -/
def depEnvS : DepEnv :=
  { detect := fun src _ => .ok src,
    storageGet := fun _ => .ok (),
    storageDir := fun key => .ok ("/deps/" ++ key),
    stat := fun _ => .present,
    parseFile := fun _ => .ok depFileS,
    resolveImports := fun f => .ok f,
    loader := none,
    hasID := fun _ => .ok true }

/-- The file of the vertex `compileDependencies` builds for key `"b"` in
`depEnvS`: `depFileS` with the source set and the root configuration
propagated. -/
def depVFileS : File :=
  { path := "", id := "b-id", source := "b",
    application := { name := "b", dependencies := [] }, imports := [],
    infrastructure := "aws",
    project := some { name := "", infrastructure := "aws-east" } }

/-- The vertex `compileDependencies` builds for key `"b"` in `depEnvS`. -/
def depVS : CompiledGraphVertex :=
  { file := depVFileS, dir := "/deps/b", nameValue := "b" }

/-- The graph produced by `compileDependencies depEnvS 2 rootVS`. -/
def gS : Graph := { vertices := [rootVS, depVS], edges := [(rootVS, depVS)] }

/-- Witness for C1 on the concrete environment `depEnvS`. -/
theorem compileDependencies_propagates_witness :
    depVS.file.infrastructure = rootVS.file.infrastructure ∧
      ∀ rp, rootVS.file.project = some rp →
        ∃ p, depVS.file.project = some p ∧ p.infrastructure = rp.infrastructure :=
  compileDependencies_propagates depEnvS 2 rootVS
    { vertices := [rootVS], edges := [] } gS (by decide) depVS (by decide)
    (by decide)

/-- C10: when the fetched dependency directory contains no Appfile
(`os.IsNotExist`) and no Loader callback is configured, the dependency
loader does not return an error: it proceeds with a nil `File` and
dereferences it at `f.Source = key`, ending in a nil-pointer panic rather
than any reported failure. -/
theorem loadDependency_nil_deref (env : DepEnv) (rootV : CompiledGraphVertex)
    (key dir : String)
    (hget : env.storageGet key = .ok ())
    (hdir : env.storageDir key = .ok dir)
    (hstat : env.stat dir = .absent)
    (hld : env.loader = none) :
    loadDependency env rootV key = .nilPanic ∧
      ∀ e, loadDependency env rootV key ≠ .err e := by
  have hmain : loadDependency env rootV key = .nilPanic := by
    unfold loadDependency
    simp [hget, hdir, hstat, hld]
  refine ⟨hmain, fun e he => ?_⟩
  rw [hmain] at he
  exact absurd he (by simp)

/-- `depEnvS` with every dependency directory missing its Appfile. -/
def depEnvAbsentS : DepEnv := { depEnvS with stat := fun _ => .absent }

/-- Witness for C10 on the concrete environment `depEnvAbsentS`. -/
theorem loadDependency_nil_deref_witness :
    loadDependency depEnvAbsentS rootVS "b" = .nilPanic ∧
      ∀ e, loadDependency depEnvAbsentS rootVS "b" ≠ .err e :=
  loadDependency_nil_deref depEnvAbsentS rootVS "b" "/deps/b" rfl rfl rfl rfl

/-! ## Claim theorems for LoadCompiled and cycle reporting -/

/-- C3: with `D/version` read as `s` and parsed to `v`, `LoadCompiled` fails
with the fixed recompile-with-newer-tool message and never opens
`D/Appfile.compiled` exactly when `v > CompileVersion`; when
`v ≤ CompileVersion` it proceeds to open and decode `D/Appfile.compiled` and
returns the decode outcome. -/
theorem loadCompiled_version_gate (readVersionFile : Except String String)
    (parseInt : String → Except String Int)
    (decodeCompiled : Except String Compiled) (s : String) (v : Int)
    (hs : readVersionFile = .ok s) (hv : parseInt s = .ok v) :
    (v > CompileVersion →
        loadCompiled readVersionFile parseInt decodeCompiled
          = ([LoadEvent.readVersion], .error recompileNewerMsg)) ∧
      (v ≤ CompileVersion →
        loadCompiled readVersionFile parseInt decodeCompiled
          = ([LoadEvent.readVersion, LoadEvent.openCompiled], decodeCompiled)) := by
  subst hs
  refine ⟨fun hgt => ?_, fun hle => ?_⟩
  · simp [loadCompiled, hv, hgt]
  · simp [loadCompiled, hv, not_lt.mpr hle]

/-- Witness for C3: a version file reading `2` is rejected with the fixed
message before any decode, and one reading `1` loads the decoded value. -/
theorem loadCompiled_version_gate_witness :
    (loadCompiled (.ok "2") (fun _ => .ok 2) (.error "never decoded")
        = ([LoadEvent.readVersion], .error recompileNewerMsg)) ∧
      (loadCompiled (.ok "1") (fun _ => .ok 1) (.ok default)
        = ([LoadEvent.readVersion, LoadEvent.openCompiled], .ok default)) :=
  ⟨(loadCompiled_version_gate (.ok "2") (fun _ => .ok 2) (.error "never decoded")
      "2" 2 rfl rfl).1 (by decide),
    (loadCompiled_version_gate (.ok "1") (fun _ => .ok 1) (.ok default)
      "1" 1 rfl rfl).2 (by decide)⟩

/-- C5 as stated is false on the code: when `graph.Cycles()` returns two
cycles after an edge addition, only the first appears in the error list —
the loop body returns inside the first iteration, so the second cycle is
never reported. -/
theorem reportCycles_counterexample :
    (reportCycles [["root", "p"], ["root", "q"]] []).fst
        = [cycleErrorMsg ["root", "p"]] ∧
      cycleErrorMsg ["root", "q"] ∉
        (reportCycles [["root", "p"], ["root", "q"]] []).fst := by
  refine ⟨rfl, ?_⟩
  decide

/-- C5 amended: after each edge addition the resolver queries for cycles;
when the query returns cycles, it appends a single error for the first
returned cycle, listing that cycle's vertex names in order, and aborts
the import; the remaining cycles of the same query are not reported. With no
cycles it continues with the error list unchanged. -/
theorem reportCycles_first_cycle (cycles : List (List String))
    (c : List String) (rest : List (List String)) (acc : List String)
    (hc : cycles = c :: rest) :
    reportCycles cycles acc = (acc ++ [cycleErrorMsg c], false) ∧
      reportCycles [] acc = (acc, true) := by
  subst hc
  exact ⟨rfl, rfl⟩

/-- Witness for the amended C5 at a two-cycle query. -/
theorem reportCycles_first_cycle_witness :
    reportCycles [["root", "p"], ["root", "q"]] ["earlier"]
        = (["earlier"] ++ [cycleErrorMsg ["root", "p"]], false) ∧
      reportCycles [] ["earlier"] = (["earlier"], true) :=
  reportCycles_first_cycle [["root", "p"], ["root", "q"]] ["root", "p"]
    [["root", "q"]] ["earlier"] rfl

/-! ## The Compiler facade (claims C7, C8) -/

/-- The external collaborators of the facade `Compile` beyond `DepEnv`:
* `versionWrite` models `compileVersion(c.opts.Dir)`;
* `hasIDRoot`/`initID`/`loadID` model `f.hasID()`, `f.initID()`,
  `f.loadID()` on the root file (`loadID` returns the loaded UUID);
* `validateFile` models `File.Validate` (the appfile schema);
* `cyclesOf` models `Graph.Cycles()` of the `dag` library;
* `compiledWrite` models the marshal-and-write of `compileWrite`. -/
structure CompileEnv where
  dep : DepEnv
  versionWrite : Except String Unit
  hasIDRoot : Except String Bool
  initID : Except String Unit
  loadID : Except String String
  validateFile : File → Except String Unit
  cyclesOf : Graph → List (List String)
  compiledWrite : Except String Unit

/-- `"Dependency cycle: %s"` -/
def depCycleMsg (names : List String) : String :=
  "Dependency cycle: " ++ String.intercalate ", " names

/-- `Compiled.Validate`: one error per cycle of the dependency graph, then
one validation error per failing vertex file, prefixed with
`"Dependency <source>:"` for vertices with a non-empty source.  The walk is
concurrent and order-independent in the source; vertex list order stands for
one admissible accumulation order. -/
def compiledValidate (cyclesOf : Graph → List (List String))
    (validateFile : File → Except String Unit) (c : Compiled) : List String :=
  (cyclesOf c.graph).map depCycleMsg ++
    c.graph.vertices.filterMap fun v =>
      match validateFile v.file with
      | .ok _ => none
      | .error e =>
        if v.file.source = "" then some e
        else some ("Dependency " ++ v.file.source ++ ": " ++ e)

/-- The on-disk artifact writes `Compile` can perform under its output
directory: `D/version` and `D/Appfile.compiled`. -/
inductive WriteEvent where
  | writeVersion
  | writeCompiled
deriving Repr, DecidableEq

/-- The root-ID bootstrap of `Compile`, run when `f.Path != ""`: check for
an `.ottoid` beside the root Appfile, create it when absent, then load it
into `f.ID`. -/
def idSteps (env : CompileEnv) (f : File) : Except String File :=
  match env.hasIDRoot with
  | .error e => .error ("Error checking for Appfile UUID: " ++ e)
  | .ok hasID =>
    match (if hasID then Except.ok () else env.initID) with
    | .error e => .error ("Error writing UUID for this Appfile: " ++ e)
    | .ok _ =>
      match env.loadID with
      | .error e => .error ("Error loading Appfile UUID: " ++ e)
      | .ok uuid => .ok { f with id := uuid }

/-- The vertex `MinCompile` adds for the root file. -/
def rootVertex (f : File) : CompiledGraphVertex :=
  { file := f, dir := "", nameValue := f.application.name }

/-- `MinCompile(f)`: resolve the imports of `f` and return a `Compiled`
holding the merged file and a one-vertex graph. -/
def minCompile (env : CompileEnv) (f : File) : Except String Compiled :=
  match env.dep.resolveImports f with
  | .error e => .error e
  | .ok f2 => .ok { file := f2, graph := { vertices := [rootVertex f2], edges := [] } }

/-- `Compile(f)`, step by step: write `D/version`, bootstrap the root ID,
`MinCompile`, validate the root file, compile dependencies from the root
vertex, validate the compiled graph, and finally write
`D/Appfile.compiled`.  The first component records the artifact files
written under the output directory, in order. -/
def compile (env : CompileEnv) (fuel : Nat) (f : File) :
    List WriteEvent × Outcome Compiled :=
  match env.versionWrite with
  | .error e => ([], .err ("Error writing compiled Appfile version: " ++ e))
  | .ok _ =>
  let evs := [WriteEvent.writeVersion]
  match (if f.path = "" then Except.ok f else idSteps env f) with
  | .error e => (evs, .err e)
  | .ok f1 =>
  match minCompile env f1 with
  | .error e => (evs, .err e)
  | .ok compiled0 =>
  match env.validateFile compiled0.file with
  | .error e => (evs, .err e)
  | .ok _ =>
  match compileDependencies env.dep fuel (rootVertex compiled0.file)
      compiled0.graph with
  | .err e => (evs, .err e)
  | .nilPanic => (evs, .nilPanic)
  | .ok g2 =>
  match compiledValidate env.cyclesOf env.validateFile
      { file := compiled0.file, graph := g2 } with
  | e :: es => (evs, .err (String.intercalate "\n" (e :: es)))
  | [] =>
    match env.compiledWrite with
    | .error e => (evs, .err e)
    | .ok _ =>
      (evs ++ [WriteEvent.writeCompiled], .ok { file := compiled0.file, graph := g2 })

/-- The write trace of any `Compile` run is one of `[]`, `[version]` or
`[version, compiled]`, and the compiled artifact is written exactly on
successful runs. -/
theorem compile_trace_cases (env : CompileEnv) (fuel : Nat) (f : File) :
    ((compile env fuel f).fst = [] ∨
      (compile env fuel f).fst = [WriteEvent.writeVersion] ∨
      (compile env fuel f).fst
        = [WriteEvent.writeVersion, WriteEvent.writeCompiled]) ∧
      (WriteEvent.writeCompiled ∈ (compile env fuel f).fst ↔
        ∃ c, (compile env fuel f).snd = Outcome.ok c) := by
  unfold compile
  repeat' split
  all_goals simp

/-- A concrete facade environment over `depEnvS` in which import resolution
of the root file fails. -/
def compileEnvFailImports : CompileEnv :=
  { dep := { depEnvS with resolveImports := fun _ => .error "import fetch failed" },
    versionWrite := .ok (), hasIDRoot := .ok true, initID := .ok (),
    loadID := .ok "root-id", validateFile := fun _ => .ok (),
    cyclesOf := fun _ => [], compiledWrite := .ok () }

/-- C7 as stated is false on the code: `D/version` — a compiled-artifact
file under the output directory — is written at the start of `Compile`,
before import resolution runs; here import resolution fails, the run
returns an error, and the version file has nevertheless been written. -/
theorem compile_writes_version_first :
    (compile compileEnvFailImports 2 rootFileS).snd
        = Outcome.err "import fetch failed" ∧
      WriteEvent.writeVersion ∈ (compile compileEnvFailImports 2 rootFileS).fst := by
  refine ⟨rfl, ?_⟩
  decide

/-- C7 amended: `D/Appfile.compiled` is written only after import
resolution, dependency compilation and graph validation have all completed
without error — it is written exactly on successful runs, as the final
write — but `D/version` is written at the start of `Compile`, before any
resolution, and remains written on failure. -/
theorem compile_compiled_artifact_last (env : CompileEnv) (fuel : Nat) (f : File) :
    (WriteEvent.writeCompiled ∈ (compile env fuel f).fst ↔
        ∃ c, (compile env fuel f).snd = Outcome.ok c) ∧
      ((compile env fuel f).fst = [] ∨
        (compile env fuel f).fst = [WriteEvent.writeVersion] ∨
        (compile env fuel f).fst
          = [WriteEvent.writeVersion, WriteEvent.writeCompiled]) := by
  have h := compile_trace_cases env fuel f
  exact ⟨h.2, h.1⟩

/-- C8: a dependency whose directory holds a parsable Appfile but no
`.ottoid` makes the dependency loader fail with the fixed remediation
message naming the dependency's canonical key; and whenever `Compile`
returns an error, `D/Appfile.compiled` has not been written. -/
theorem compile_missing_ottoid (env : DepEnv) (rootV : CompiledGraphVertex)
    (key dir : String) (f0 f1 : File) (cenv : CompileEnv) (fuel : Nat)
    (f : File) (e : String)
    (hget : env.storageGet key = .ok ())
    (hdir : env.storageDir key = .ok dir)
    (hstat : env.stat dir = .present)
    (hparse : env.parseFile dir = .ok f0)
    (hres : env.resolveImports f0 = .ok f1)
    (hld : env.loader = none)
    (hid : env.hasID { f1 with source := key } = .ok false) :
    loadDependency env rootV key = .err (ottoIDMsg key) ∧
      ((compile cenv fuel f).snd = .err e →
        WriteEvent.writeCompiled ∉ (compile cenv fuel f).fst) := by
  constructor
  · unfold loadDependency finishDependency
    simp [hget, hdir, hstat, hparse, hres, hld, hid]
  · intro herr hmem
    obtain ⟨c, hc⟩ := (compile_trace_cases cenv fuel f).2.mp hmem
    rw [herr] at hc
    exact absurd hc (by simp)

/-- `depEnvS` with the `.ottoid` check failing on every dependency. -/
def depEnvNoID : DepEnv := { depEnvS with hasID := fun _ => .ok false }

/-- A facade environment over `depEnvNoID`: everything succeeds except the
dependency identity check. -/
def compileEnvNoID : CompileEnv :=
  { dep := depEnvNoID, versionWrite := .ok (), hasIDRoot := .ok true,
    initID := .ok (), loadID := .ok "root-id",
    validateFile := fun _ => .ok (), cyclesOf := fun _ => [],
    compiledWrite := .ok () }

set_option maxRecDepth 4096 in
/-- Witness for C8: compiling `rootFileS` against `depEnvNoID` fails with
the fixed message naming key `"b"` and writes no compiled artifact. -/
theorem compile_missing_ottoid_witness :
    loadDependency depEnvNoID rootVS "b" = .err (ottoIDMsg "b") ∧
      WriteEvent.writeCompiled ∉ (compile compileEnvNoID 2 rootFileS).fst :=
  ⟨(compile_missing_ottoid depEnvNoID rootVS "b" "/deps/b" depFileS depFileS
      compileEnvNoID 2 rootFileS (ottoIDMsg "b") rfl rfl rfl rfl rfl rfl rfl).1,
    (compile_missing_ottoid depEnvNoID rootVS "b" "/deps/b" depFileS depFileS
      compileEnvNoID 2 rootFileS (ottoIDMsg "b") rfl rfl rfl rfl rfl rfl rfl).2
      (by decide)⟩

/-! ## The import cache under concurrency (claim C9) -/

/-- The visible phases of one `downloadSingle` goroutine: before its cache
consultation, after a cache miss (callback, fetch, parse, recursive resolve,
slot write and cache write-back still to run), or finished. -/
inductive TaskPhase where
  | start
  | fetching
  | done
deriving Repr, DecidableEq

/-- Events observable from the import tasks: the `CompileEventImport`
callback and the `storage.Get` fetch, tagged with the acting task index. -/
inductive ImpEvent where
  | importCallback (task : Nat) (source : String)
  | fetch (task : Nat) (source : String)
deriving Repr, DecidableEq

/-- The shared state of one `importSingle` invocation: the per-`Compiler`
cache of imports, the per-task sources and phases (task `t` downloads the
source of `tasks[t]` into slot `t`), the merge slots, and the event log. -/
structure ImpState where
  cache : List (String × File)
  tasks : List (String × TaskPhase)
  slots : List (Option File)
  events : List ImpEvent
deriving Repr, DecidableEq

/-- One atomic step of goroutine `t`, faithful to the lock structure of
`downloadSingle`:
* in phase `start` the task reads the cache under `cacheLock` and releases
  the lock; on a hit it writes the cached file into its slot and finishes —
  no callback, no fetch; on a miss it moves to `fetching`;
* in phase `fetching` it emits the import callback (when one is configured)
  and the fetch, then writes the fetched-and-resolved file `fetchFile src`
  into its slot and back into the cache;
* a finished task does nothing.

The cache read and the cache write-back are separate atomic actions, as in
the source, where `cacheLock` is released between them. -/
def stepTask (fetchFile : String → File) (cb : Bool) (s : ImpState)
    (t : Nat) : ImpState :=
  match s.tasks[t]? with
  | none => s
  | some (src, phase) =>
    match phase with
    | .done => s
    | .start =>
      match List.lookup src s.cache with
      | some f =>
        { s with slots := s.slots.set t (some f),
                 tasks := s.tasks.set t (src, TaskPhase.done) }
      | none => { s with tasks := s.tasks.set t (src, TaskPhase.fetching) }
    | .fetching =>
      let f := fetchFile src
      { s with
        events := s.events ++
          (if cb then [ImpEvent.importCallback t src] else []) ++
          [ImpEvent.fetch t src],
        slots := s.slots.set t (some f),
        cache := (src, f) :: s.cache,
        tasks := s.tasks.set t (src, TaskPhase.done) }

/-- Run the tasks under an interleaving `sched` (the list of task indices in
the order the scheduler lets them act). -/
def runSched (fetchFile : String → File) (cb : Bool) :
    ImpState → List Nat → ImpState
  | s, [] => s
  | s, t :: rest => runSched fetchFile cb (stepTask fetchFile cb s t) rest

/-- The initial state of `importSingle` for a file whose imports resolve to
`sources`, with the per-`Compiler` cache in state `cache`. -/
def initImpState (sources : List String) (cache : List (String × File)) :
    ImpState :=
  { cache := cache, tasks := sources.map (fun src => (src, TaskPhase.start)),
    slots := List.replicate sources.length none, events := [] }

/-- How many times `src` was fetched from storage in the event log. -/
def fetchCount (evs : List ImpEvent) (src : String) : Nat :=
  (evs.filter fun e =>
    match e with
    | ImpEvent.fetch _ s => s == src
    | _ => false).length

/-- A finished task never acts again. -/
theorem stepTask_done (fetchFile : String → File) (cb : Bool) (s : ImpState)
    (t : Nat) (src : String)
    (h : s.tasks[t]? = some (src, TaskPhase.done)) :
    stepTask fetchFile cb s t = s := by
  unfold stepTask
  simp [h]

/-- C9 as stated is false on the code: the cache consultation and the cache
write-back of `downloadSingle` are not one atomic action, so two tasks for
the same canonical key that both consult the cache before either writes it
back each fetch the key — here key `"z"` is fetched twice within one
`Compiler` instance. -/
theorem importCache_double_fetch :
    fetchCount (runSched (fun _ => depFileS) true
        (initImpState ["z", "z"] []) [0, 1, 0, 1]).events "z" = 2 ∧
      ¬ fetchCount (runSched (fun _ => depFileS) true
        (initImpState ["z", "z"] []) [0, 1, 0, 1]).events "z" ≤ 1 := by
  refine ⟨?_, by decide⟩
  rfl

/-- C9 amended: when the import's canonical key is in the cache at the
moment the task consults it, the task performs no storage fetch and invokes
no import callback — it emits no event at all — and places the cached file
directly into its merge slot, finishing at once; but a key can be fetched
more than once per `Compiler` instance when several tasks miss the cache
before any of them writes it back. -/
theorem importCache_hit_no_fetch (fetchFile : String → File) (cb : Bool)
    (s : ImpState) (t : Nat) (src : String) (f : File)
    (htask : s.tasks[t]? = some (src, TaskPhase.start))
    (hslot : t < s.slots.length)
    (hhit : List.lookup src s.cache = some f) :
    (stepTask fetchFile cb s t).events = s.events ∧
      (stepTask fetchFile cb s t).slots[t]? = some (some f) ∧
      (stepTask fetchFile cb s t).tasks[t]? = some (src, TaskPhase.done) ∧
      stepTask fetchFile cb (stepTask fetchFile cb s t) t
        = stepTask fetchFile cb s t := by
  obtain ⟨htlen, -⟩ := List.getElem?_eq_some.mp htask
  have hstep : stepTask fetchFile cb s t =
      { s with slots := s.slots.set t (some f),
               tasks := s.tasks.set t (src, TaskPhase.done) } := by
    unfold stepTask
    simp [htask, hhit]
  have htasks2 : (stepTask fetchFile cb s t).tasks[t]?
      = some (src, TaskPhase.done) := by
    rw [hstep]
    exact List.getElem?_set_eq_of_lt _ htlen
  refine ⟨by rw [hstep], ?_, htasks2, ?_⟩
  · rw [hstep]
    exact List.getElem?_set_eq_of_lt _ hslot
  · exact stepTask_done fetchFile cb _ t src htasks2

/-- Witness for the amended C9: a one-task state whose key is cached. -/
theorem importCache_hit_no_fetch_witness :
    (stepTask (fun _ => depFileS) true
        { cache := [("z", cachedSample)], tasks := [("z", TaskPhase.start)],
          slots := [none], events := [] } 0).events = [] ∧
      (stepTask (fun _ => depFileS) true
        { cache := [("z", cachedSample)], tasks := [("z", TaskPhase.start)],
          slots := [none], events := [] } 0).slots[0]? = some (some cachedSample) ∧
      (stepTask (fun _ => depFileS) true
        { cache := [("z", cachedSample)], tasks := [("z", TaskPhase.start)],
          slots := [none], events := [] } 0).tasks[0]?
        = some ("z", TaskPhase.done) ∧
      stepTask (fun _ => depFileS) true
          (stepTask (fun _ => depFileS) true
            { cache := [("z", cachedSample)], tasks := [("z", TaskPhase.start)],
              slots := [none], events := [] } 0) 0
        = stepTask (fun _ => depFileS) true
            { cache := [("z", cachedSample)], tasks := [("z", TaskPhase.start)],
              slots := [none], events := [] } 0 :=
  importCache_hit_no_fetch (fun _ => depFileS) true
    { cache := [("z", cachedSample)], tasks := [("z", TaskPhase.start)],
      slots := [none], events := [] } 0 "z" cachedSample rfl (by decide) rfl

end Otto
